import Mathlib

/-
  Verification of the ncdc core engine against its natural-language
  specification.

  The development shallowly embeds the relevant C code:
  * the file-list model (struct fl_list and its operations),
  * the download queue (struct dl_t, dl_user_dl_t and their operations,
    including the block-receipt/hash-verification path),
  * the listener multiplexer (listen_global_init, bind_add, bind_create),
  * the persistence service loop (db_queue_process).

  Machine integers of the C source are modelled as Nat/Int (no overflow is
  reachable in the verified paths: sizes and counts stay far below 2^63),
  byte buffers as List Nat, C strings as String, and the mutable heap
  structures as immutable records threaded through the functions.
  External collaborators (the Tiger hash, the SQLite engine, the OS socket
  layer, the random number generator) are parameters of the definitions;
  every theorem quantifies over them or fixes them as oracles.
-/

namespace Ncdc

/-! ### File-list model (fl_list)

Embeds `struct fl_list` from the file-list source: a node is either a file
(with `hastth` flag and 24-byte `tth`, which we do not carry since no claim
reads the hash bytes of a file-list node) or a directory with an ordered
list of children.  `size` of a directory is the stored sum-of-descendants
field.  `parent` back-pointers are represented by the tree structure
itself. -/

inductive fl_list_t where
  | file (name : String) (size : Nat) (hastth : Bool)
  | dir (name : String) (size : Nat) (sub : List fl_list_t)

def fl_name : fl_list_t → String
  | .file n _ _ => n
  | .dir n _ _ => n

def fl_size : fl_list_t → Nat
  | .file _ s _ => s
  | .dir _ s _ => s

/-- The `isfile` bit of a node. -/
def fl_isfile : fl_list_t → Bool
  | .file _ _ _ => true
  | .dir _ _ _ => false

/-- The `hastth` bit of a node (only ever set on files in the C code). -/
def fl_hastth : fl_list_t → Bool
  | .file _ _ h => h
  | .dir _ _ _ => false

/-- Embeds `fl_list_isempty`: iterates over the immediate children of a
directory and returns FALSE as soon as one of them is not a file or carries
a TTH; the guard `g_return_val_if_fail(!fl->isfile, FALSE)` makes the
function return FALSE on a file argument. -/
def fl_list_isempty : fl_list_t → Bool
  | .file _ _ _ => false
  | .dir _ _ sub => sub.all fun f =>
      match f with
      | .file _ _ hastth => !hastth
      | .dir _ _ _ => false

mutual

/-- Spec-side predicate (from the spec sentence for `is_empty`): does any
node in the subtree rooted at the argument carry a TTH, i.e. is it a file
with `hastth`?  Used to state claim C6; it is not a translation of any C
function. -/
def subtree_has_tth_file : fl_list_t → Bool
  | .file _ _ h => h
  | .dir _ _ sub => subtree_list_has_tth sub

def subtree_list_has_tth : List fl_list_t → Bool
  | [] => false
  | f :: fs => subtree_has_tth_file f || subtree_list_has_tth fs

end

/-- Embeds `fl_load_fixinput`: the loop `while(len > 1)` rewrites the byte
`0x1d` to `?` (0x3f) at positions `0 .. len-2` of the buffer; the final
byte of the buffer is never examined. -/
def fl_load_fixinput : List Nat → List Nat
  | [] => []
  | [b] => [b]
  | b :: b2 :: rest =>
      (if b = 0x1d then 0x3f else b) :: fl_load_fixinput (b2 :: rest)

/-- A fully-rewriting variant, stated from the spec sentence "the reader
rewrites each such byte to `?`"; used to express what claim C7 demands of
every byte position including the last. -/
def fixinput_spec (buf : List Nat) : List Nat :=
  buf.map fun b => if b = 0x1d then 0x3f else b

/-! ### Search predicates (fl_search)

Embeds `struct fl_search` and the matching functions.  The compiled GRegex
keyword matchers (case-insensitive literal substring tests) are modelled as
opaque boolean predicates on the node name, which is exactly how
`fl_search_match_name` consumes them. -/

structure fl_search where
  sizem : Int
  filedir : Nat
  size : Nat
  ext : List String
  and : List (String → Bool)
  not : Option (String → Bool)

/-- Models `strrchr(name, '.')` followed by the `!l || !l[1]` test of
`fl_search_match_name`: the extension is the non-empty suffix after the
last dot, if a dot exists. -/
def str_after_last_dot (name : String) : Option String :=
  let cs := name.toList
  if cs.contains '.' then
    let suffix := (cs.reverse.takeWhile (fun c => c ≠ '.')).reverse
    if suffix.isEmpty then none else some (String.mk suffix)
  else none

/-- Embeds `fl_search_match_name`: every AND keyword must match the name,
the NOT regex must not match, and (if the extension list is non-empty) the
file extension must equal one of the listed extensions case-insensitively
(`g_ascii_strcasecmp`). -/
def fl_search_match_name (fl : fl_list_t) (s : fl_search) : Bool :=
  (s.and.all fun r => r (fl_name fl)) &&
  (match s.not with
   | some r => !(r (fl_name fl))
   | none => true) &&
  (if s.ext.isEmpty then true
   else match str_after_last_dot (fl_name fl) with
     | none => false
     | some l => s.ext.any fun e => l.toLower == e.toLower)

/-- Embeds the `fl_search_match` macro: the file/dir mask conjunct (a file
additionally needs `hastth`), the size conjunct (`sizem`: -2 any, -1 at
most, 0 equal, 1 greater), and the name conjunct. -/
def fl_search_match (fl : fl_list_t) (s : fl_search) : Bool :=
  ((decide (s.filedir &&& 2 ≠ 0) && !(fl_isfile fl)) ||
   (decide (s.filedir &&& 1 ≠ 0) && fl_isfile fl && fl_hastth fl)) &&
  ((s.sizem == -2) ||
   (s.sizem == 0 && fl_size fl == s.size) ||
   (decide (s.sizem < 0) && decide (fl_size fl ≤ s.size)) ||
   (decide (s.sizem > 0) && decide (fl_size fl > s.size))) &&
  fl_search_match_name fl s

/-! ### Download queue (dl_t / dl_user_dl_t)

Embeds `struct dl_t` of the download orchestrator.  Fields not read by any
verified operation (`flopen`, `flmatch`, `dlthread`, `delete`, `incfd`,
`inc`, `flsel`, `flpar`, `iter`, `error_msg`) are omitted; the `u` array of
user iterators is modelled as the list of associated user ids.  The running
Tiger-tree context `hash_tth` is modelled as the list of bytes accumulated
for the block currently being hashed (`none` = the context has not been
allocated yet), and finalizing the context applies an arbitrary hash
function supplied as a parameter. -/

structure dl_t where
  islist : Bool
  hastthl : Bool
  active : Bool
  prio : Int
  error : Nat
  hash : List Nat
  u : List Nat
  size : Nat
  have_ : Nat
  dest : String
  hash_block : Nat
  hash_tth : Option (List Nat)
deriving DecidableEq

def DLP_ERR : Int := -65
def DLP_OFF : Int := -64

def DLE_NONE : Nat := 0
def DLE_INVTTHL : Nat := 1
def DLE_NOFILE : Nat := 2
def DLE_IO_INC : Nat := 3
def DLE_IO_DEST : Nat := 4
def DLE_HASH : Nat := 5

/-- Minimum file size for which TTHL data is requested (2 MiB),
`DL_MINTTHLSIZE` in the source. -/
def DL_MINTTHLSIZE : Nat := 2048 * 1024

/-- Minimum TTHL block size (1 MiB), `DL_MINBLOCKSIZE` in the source. -/
def DL_MINBLOCKSIZE : Nat := 1024 * 1024

/-- Embeds `struct dl_user_dl_t`: one entry of a user's download queue,
pairing a download record with a per-user error. -/
structure dl_user_dl_t where
  dl : dl_t
  error : Nat
deriving DecidableEq

/-- Embeds the `dl_user_dl_enabled` macro: no per-user error, priority
above `DLP_OFF`, and either an unsized file list or a file that is not yet
complete. -/
def dl_user_dl_enabled (dud : dl_user_dl_t) : Bool :=
  dud.error == 0 && decide (dud.dl.prio > DLP_OFF) &&
    ((dud.dl.size == 0 && dud.dl.islist) || !(dud.dl.size == dud.dl.have_))

/-- Models libc `strcmp`: lexicographic comparison of the character
sequences (the C code compares the UTF-8 bytes; only the sign of the
result is ever consumed, and byte-wise and scalar-value-wise lexicographic
comparison agree on equality, which is all the verified property uses). -/
def strcmp_chars : List Char → List Char → Int
  | [], [] => 0
  | [], _ :: _ => -1
  | _ :: _, [] => 1
  | a :: as, b :: bs =>
      if a.toNat < b.toNat then -1
      else if b.toNat < a.toNat then 1
      else strcmp_chars as bs

/-- Models libc `strcmp` on the two destination paths. -/
def strcmp (a b : String) : Int := strcmp_chars a.toList b.toList

/-- Embeds `dl_user_dl_sort`: enabled entries before disabled ones, file
lists before regular files, higher priority first, remaining ties by
`strcmp` on the destination path. -/
def dl_user_dl_sort (x y : dl_user_dl_t) : Int :=
  if dl_user_dl_enabled x && !(dl_user_dl_enabled y) then -1
  else if !(dl_user_dl_enabled x) && dl_user_dl_enabled y then 1
  else if x.dl.islist && !(y.dl.islist) then -1
  else if !(x.dl.islist) && y.dl.islist then 1
  else if x.dl.prio > y.dl.prio then -1
  else if x.dl.prio < y.dl.prio then 1
  else strcmp x.dl.dest y.dl.dest

/-- Embeds `dl_user_add` restricted to its effect on the record's user set
`dl->u`: the guard `g_return_if_fail(!dl->islist || dl->u->len == 0)`
rejects a second user on a file-list record, otherwise the user's new
queue entry is appended to `dl->u`. -/
def dl_user_add (dl : dl_t) (uid : Nat) : dl_t :=
  if dl.islist && !(dl.u.length == 0) then dl
  else { dl with u := dl.u ++ [uid] }

/-- Embeds the per-record part of `dl_queue_rmuser` with a non-NULL tth
combined with `dl_user_rm`: the matching entry of the user is removed from
`dl->u`. -/
def dl_rm_uid (dl : dl_t) (uid : Nat) : dl_t :=
  { dl with u := dl.u.erase uid }

/-- Embeds `dl_queue_rmuser(uid, tth)` for a non-NULL tth on the global
queue (modelled as a list of records; the C hash table keys records by
their 24-byte hash): the user is removed from the record whose hash is
`tth`, and afterwards — exactly as the source's
`if(dl->islist && !dl->u->len) dl_queue_rm(dl);` — a file-list record left
with no users is removed from the queue. -/
def dl_queue_rmuser (q : List dl_t) (uid : Nat) (tth : List Nat) : List dl_t :=
  (q.map fun dl => if dl.hash == tth then dl_rm_uid dl uid else dl).filter
    fun dl => !(dl.hash == tth && dl.islist && dl.u.isEmpty)

/-- Embeds the head of `dl_queue_insert`: a regular file no larger than
`DL_MINTTHLSIZE` that does not have TTHL data yet gets `hastthl` set with
`hash_block = DL_MINTTHLSIZE`; the record's (fresh, empty) user array is
created.  The side effects on the incoming-path string, the database and
the scheduler carry no state read by any claim and are not modelled. -/
def dl_queue_insert_dl (dl : dl_t) : dl_t :=
  if !(dl.islist) && !(dl.hastthl) && decide (dl.size ≤ DL_MINTTHLSIZE) then
    { dl with hastthl := true, hash_block := DL_MINTTHLSIZE, u := [] }
  else { dl with u := [] }

/-- Embeds `dl_queue_insert` on the global queue. -/
def dl_queue_insert (q : List dl_t) (dl : dl_t) : List dl_t :=
  dl_queue_insert_dl dl :: q

/-- Embeds `dl_load_dl`: builds a record from a database row; a file
smaller than `DL_MINTTHLSIZE` gets `hastthl` and `hash_block =
DL_MINTTHLSIZE` immediately, otherwise a non-empty stored TTHL blob sets
`hash_block = tth_blocksize(size, tthllen/24)`.  `tth_blocksize` lives in
a utility file outside the provided sources and is passed as a
parameter. -/
def dl_load_dl (tth_blocksize : Nat → Nat → Nat) (tth : List Nat) (size : Nat)
    (dest : String) (prio : Int) (error : Nat) (tthllen : Nat) : dl_t :=
  let base : dl_t :=
    { islist := false, hastthl := false, active := false, prio := prio,
      error := error, hash := tth, u := [], size := size, have_ := 0,
      dest := dest, hash_block := 0, hash_tth := none }
  if size < DL_MINTTHLSIZE then
    { base with hastthl := true, hash_block := DL_MINTTHLSIZE }
  else if tthllen ≠ 0 then
    { base with hastthl := true, hash_block := tth_blocksize size (tthllen / 24) }
  else base

/-! ### Block receipt and hash verification

Embeds the data-receive path `dl_recv_check` / `dl_recv_update` /
`dl_recv_data`.  The Tiger hash finalization `tth_final` is a parameter
`tthf` mapping the accumulated block bytes to a hash value, and the
database leaf comparison `db_dl_checkhash(dl->hash, num, tth)` is a
parameter `dbcheck num tth`. -/

/-- Embeds `dl_recv_check`: files smaller than one block are checked
against the root hash (`g_return_val_if_fail(num == 0, FALSE)` rejects any
other block number), larger files against the TTHL leaf stored in the
database. -/
def dl_recv_check (dbcheck : Nat → List Nat → Bool) (dl : dl_t)
    (num : Nat) (tth : List Nat) : Bool :=
  if dl.size < dl.hash_block then
    if num == 0 then tth == dl.hash else false
  else dbcheck num tth

/-- The `while(length > 0)` loop of `dl_recv_update`.  `ctx` is the bytes
accumulated in `dl->hash_tth`, `block`/`cur` as in the source.  Returns
the failed block number (or `none`) together with the final context.  The
`w = 0` guard can only fire when `cur ≥ hash_block`, where the C loop
would not terminate; it is unreachable from `dl_recv_update` whenever
`hash_block > 0`. -/
def dl_recv_update_loop (dbcheck : Nat → List Nat → Bool)
    (tthf : List Nat → List Nat) (dl : dl_t)
    (ctx : List Nat) (block cur : Nat) (buf : List Nat) :
    Option Nat × List Nat :=
  if _hbuf : buf.length = 0 then (none, ctx)
  else
    let w := min (dl.hash_block - cur) buf.length
    if hw : w = 0 then (none, ctx)
    else
      let ctx2 := ctx ++ buf.take w
      let cur2 := cur + w
      let rest := buf.drop w
      if cur2 = dl.hash_block ∨ (rest.length = 0 ∧ dl.size = block * dl.hash_block + cur2) then
        if dl_recv_check dbcheck dl block (tthf ctx2) then
          dl_recv_update_loop dbcheck tthf dl [] (block + 1) 0 rest
        else (some block, [])
      else dl_recv_update_loop dbcheck tthf dl ctx2 block cur2 rest
termination_by buf.length
decreasing_by
  all_goals simp only [List.length_drop]; omega

/-- Embeds `dl_recv_update`: computes the current block number and offset
from `dl->have`, lazily allocates the hash context (the guard
`g_return_val_if_fail(!cur, FALSE)` returns FALSE, i.e. the integer 0,
which the caller reads as block 0 failing), and runs the hashing loop. -/
def dl_recv_update (dbcheck : Nat → List Nat → Bool)
    (tthf : List Nat → List Nat) (dl : dl_t) (buf : List Nat) :
    Option Nat × dl_t :=
  let block := dl.have_ / dl.hash_block
  let cur := dl.have_ % dl.hash_block
  match dl.hash_tth with
  | none =>
      if cur ≠ 0 then (some 0, dl)
      else
        let r := dl_recv_update_loop dbcheck tthf dl [] block 0 buf
        (r.1, { dl with hash_tth := some r.2 })
  | some ctx =>
      let r := dl_recv_update_loop dbcheck tthf dl ctx block cur buf
      (r.1, { dl with hash_tth := some r.2 })

/-- Embeds `struct recv_ctx_t` (the `err_msg`/`uerr_msg` strings are
represented by the failed block number that is printed into
`uerr_msg`). -/
structure recv_ctx_t where
  dl : dl_t
  uid : Nat
  err : Nat
  uerr : Nat
  uerr_block : Option Nat
deriving DecidableEq

/-- The incoming file as seen through `dl->incfd`: current descriptor
offset and file length. -/
structure inc_file_t where
  pos : Nat
  len : Nat
deriving DecidableEq

/-- Embeds `dl_recv_data`.  The OS `write` is modelled by the oracle
`write_ok`: when true the whole buffer is written in one call (so the
source's `while(length > 0)` loop runs a single iteration), when false the
call fails with an I/O error as in the source's `r < 0` branch.
`trunc_ok` is the oracle for the `lseek`+`ftruncate` pair of the
hash-failure recovery path. -/
def dl_recv_data (dbcheck : Nat → List Nat → Bool)
    (tthf : List Nat → List Nat) (write_ok trunc_ok : Bool)
    (c : recv_ctx_t) (f : inc_file_t) (buf : List Nat) :
    Bool × recv_ctx_t × inc_file_t :=
  if buf.length = 0 then (true, c, f)
  else if !write_ok then
    (false, { c with err := DLE_IO_INC }, f)
  else
    let f2 : inc_file_t :=
      { pos := f.pos + buf.length, len := max f.len (f.pos + buf.length) }
    if c.dl.islist then
      (true, { c with dl := { c.dl with have_ := c.dl.have_ + buf.length } }, f2)
    else
      let r := dl_recv_update dbcheck tthf c.dl buf
      match r.1 with
      | some fail =>
          let dl2 := { r.2 with have_ := fail * r.2.hash_block }
          if trunc_ok then
            (false,
             { c with dl := dl2, uerr := DLE_HASH, uerr_block := some fail },
             { pos := dl2.have_, len := dl2.have_ })
          else
            (false,
             { c with
                dl := dl2, uerr := DLE_HASH, uerr_block := some fail,
                err := DLE_IO_INC },
             f2)
      | none =>
          (true, { c with dl := { r.2 with have_ := r.2.have_ + buf.length } }, f2)

/-! ### Listener multiplexer (listen.c)

Embeds the bind-type constants, the random-port initialization
`listen_global_init`, the port substitution at the head of `bind_add`, and
the socket-creation step `bind_create`. -/

def LBT_TLS : Nat := 0
def LBT_UDP : Nat := 1
def LBT_TCP : Nat := 2

/-- Linux values of the socket-type constants used by `socket(2)`. -/
def SOCK_STREAM : Nat := 1
def SOCK_DGRAM : Nat := 2

/-- The three process-wide random ports drawn at startup. -/
structure listen_ports_t where
  random_tcp_port : Nat
  random_udp_port : Nat
  random_tls_port : Nat
deriving DecidableEq

/-- The `do random_tls_port = g_random_int_range(1025, 65535); while(==
random_tcp_port)` loop of `listen_global_init`, consuming a stream of
draws: returns the first draw different from the TCP port together with
the remaining draws. -/
def listen_pick_tls (tcp : Nat) : List Nat → Option (Nat × List Nat)
  | [] => none
  | t :: rest => if t = tcp then listen_pick_tls tcp rest else some (t, rest)

/-- Embeds `listen_global_init`: `random_tcp_port` is the first draw, then
the TLS port is redrawn until it differs from the TCP port, then
`random_udp_port` is the next draw.  The pseudo-random generator
`g_random_int_range(1025, 65535)` is modelled as the input stream of
draws; `none` means the stream was exhausted (the C loop would keep
drawing). -/
def listen_global_init (draws : List Nat) : Option listen_ports_t :=
  match draws with
  | [] => none
  | tcp :: rest =>
    match listen_pick_tls tcp rest with
    | none => none
    | some (tls, rest2) =>
      match rest2 with
      | [] => none
      | udp :: _ => some { random_tcp_port := tcp, random_udp_port := udp,
                           random_tls_port := tls }

/-- Embeds the head of `bind_add`: `if(!port) port = type == LBT_TCP ?
random_tcp_port : type == LBT_UDP ? random_udp_port : random_tls_port;`. -/
def bind_add_port (p : listen_ports_t) (btype : Nat) (port : Nat) : Nat :=
  if port = 0 then
    if btype = LBT_TCP then p.random_tcp_port
    else if btype = LBT_UDP then p.random_udp_port
    else p.random_tls_port
  else port

/-- OS oracle for one `bind_create` call: result of `socket(2)` (negative
means failure) and success of `bind(2)` and `listen(2)`. -/
structure os_socket_t where
  socket_fd : Int
  bind_ok : Bool
  listen_ok : Bool
deriving DecidableEq

/-- Observable effects of one `bind_create` call. -/
structure bind_create_result where
  socket_type_arg : Nat
  reuseaddr_set : Bool
  nonblock_set : Bool
  bind_called : Bool
  listen_backlog : Option Nat
  sock : Option Int
  aborted : Bool
deriving DecidableEq

/-- Embeds `bind_create` as written in the source:
`socket(AF_INET, b->type == LBT_UDP ? SOCK_STREAM : SOCK_DGRAM, 0)`
followed by `g_return_if_fail(sock < 0);` — `g_return_if_fail(expr)`
returns from the function when `expr` is FALSE, so the function returns
immediately whenever the descriptor is non-negative.  When it continues
(descriptor negative), `SO_REUSEADDR` and `O_NONBLOCK` are set, `bind` is
called, non-UDP binds call `listen(sock, 5)`, and any `bind`/`listen`
failure closes the socket and calls `listen_stop()` (modelled by
`aborted`). -/
def bind_create (os : os_socket_t) (btype : Nat) : bind_create_result :=
  let stype := if btype = LBT_UDP then SOCK_STREAM else SOCK_DGRAM
  if ¬(os.socket_fd < 0) then
    { socket_type_arg := stype, reuseaddr_set := false, nonblock_set := false,
      bind_called := false, listen_backlog := none, sock := none,
      aborted := false }
  else
    let binderr := !os.bind_ok
    let dolisten := !binderr && !(btype = LBT_UDP)
    let err := binderr || (dolisten && !os.listen_ok)
    if err then
      { socket_type_arg := stype, reuseaddr_set := true, nonblock_set := true,
        bind_called := true, listen_backlog := if dolisten then some 5 else none,
        sock := none, aborted := true }
    else
      { socket_type_arg := stype, reuseaddr_set := true, nonblock_set := true,
        bind_called := true, listen_backlog := if dolisten then some 5 else none,
        sock := some os.socket_fd, aborted := false }

/-! ### Persistence service (db.c)

Embeds the request-processing loop `db_queue_process`.  A queued request
is abstracted to its flag bits, the presence of a reply queue, and two
oracle bits: `ok` (would the SQL query execute to SQLITE_DONE) and
`beginok` (would the BEGIN that this request may trigger succeed).  COMMIT
and ROLLBACK are modelled as succeeding; the 5-second flush timeout and the
blocking pops are outside the model — the queue is given as the list of
already-submitted requests, processed in submission order exactly as the
single-threaded loop does. -/

structure db_request_t where
  next : Bool
  last : Bool
  single : Bool
  hasres : Bool
  ok : Bool
  beginok : Bool
deriving DecidableEq

/-- Events of the loop, one list per request.  `final` is a call to
`db_queue_item_final` (which pushes the sentinel result onto the reply
queue when the request carries one); `errfinal` is a call to
`db_queue_item_error` (idem, with SQLITE_ERROR); `exec` is a call to
`db_queue_process_one` actually running the query. -/
inductive db_event_t where
  | beginq
  | commit
  | rollback
  | exec (ok : Bool)
  | final (ok : Bool)
  | errfinal
deriving DecidableEq

/-- Loop state: `transEnd` models `trans_end.tv_sec != 0` (a transaction
deadline is pending), `donext` and `errtrans` as in the source. -/
structure db_state_t where
  transEnd : Bool
  donext : Bool
  errtrans : Bool
deriving DecidableEq

def db_state_init : db_state_t :=
  { transEnd := false, donext := false, errtrans := false }

/-- One iteration of the `while(1)` loop of `db_queue_process` for a
popped request, following the source's branch order: the
SINGLE-commit-and-reset block, the SINGLE execution, the `errtrans`
error-reporting branch, the LAST branch, opening a transaction (with the
BEGIN-failure path), and the normal/NEXT execution with
rollback-on-error. -/
def db_step (s : db_state_t) (r : db_request_t) : db_state_t × List db_event_t :=
  if r.single then
    ({ transEnd := false, donext := false, errtrans := false },
     (if s.transEnd then [db_event_t.commit] else []) ++
       [db_event_t.exec r.ok, db_event_t.final r.ok])
  else if s.errtrans then
    (if r.next then { s with donext := true }
     else { transEnd := false, donext := false, errtrans := false },
     [db_event_t.errfinal])
  else if r.last then
    let rok := if s.transEnd then (if r.ok then true else false) else r.ok
    ({ transEnd := false, donext := false, errtrans := s.errtrans },
     [db_event_t.exec r.ok] ++
       (if s.transEnd then
          (if r.ok then [db_event_t.commit] else [db_event_t.rollback])
        else []) ++
       [db_event_t.final rok])
  else if !s.transEnd && !r.beginok then
    (if r.next then { transEnd := true, donext := true, errtrans := true }
     else { transEnd := false, donext := s.donext, errtrans := s.errtrans },
     [db_event_t.beginq, db_event_t.errfinal])
  else
    let ev0 := if s.transEnd then [] else [db_event_t.beginq]
    if r.ok then
      ({ transEnd := true, donext := s.donext, errtrans := s.errtrans },
       ev0 ++ [db_event_t.exec true, db_event_t.final true])
    else
      (if r.next then { transEnd := true, donext := s.donext, errtrans := true }
       else { transEnd := false, donext := s.donext, errtrans := s.errtrans },
       ev0 ++ [db_event_t.exec false, db_event_t.final false, db_event_t.rollback])

/-- Runs the loop over a list of queued requests, collecting the events of
each request in submission order. -/
def db_run (s : db_state_t) : List db_request_t → List (List db_event_t)
  | [] => []
  | r :: rest => (db_step s r).2 :: db_run (db_step s r).1 rest

/-! ### Concrete instances used by counterexamples and witnesses -/

/-- A regular enabled download record (priority 0, no error, incomplete). -/
def c5dl : dl_t :=
  { islist := false, hastthl := false, active := false, prio := 0, error := 0,
    hash := [0], u := [], size := 1, have_ := 0, dest := "f", hash_block := 0,
    hash_tth := none }

/-- Queue entry for `c5dl`. -/
def c5x : dl_user_dl_t := { dl := c5dl, error := 0 }

/-- Queue entry for a distinct record (different TTH) with the same
destination path, enabled status, list flag and priority as `c5x`. -/
def c5y : dl_user_dl_t := { dl := { c5dl with hash := [1] }, error := 0 }

/-- Queue entry for a distinct record with a different destination path. -/
def c5w : dl_user_dl_t := { dl := { c5dl with hash := [1], dest := "g" }, error := 0 }

/-- A one-block download record in mid-receive: block size 4, nothing
received yet, hash context allocated and empty. -/
def c2dl : dl_t :=
  { islist := false, hastthl := true, active := true, prio := 0, error := 0,
    hash := [9], u := [7], size := 4, have_ := 0, dest := "x", hash_block := 4,
    hash_tth := some [] }

/-- Receive context over `c2dl`. -/
def c2c : recv_ctx_t :=
  { dl := c2dl, uid := 7, err := 0, uerr := 0, uerr_block := none }

/-- The incoming file of `c2dl` (empty, positioned at offset 0). -/
def c2f : inc_file_t := { pos := 0, len := 0 }

/-- A file-list download record whose sole associated user is uid 7. -/
def c10dl : dl_t :=
  { islist := true, hastthl := false, active := false, prio := 0, error := 0,
    hash := [2], u := [7], size := 0, have_ := 0, dest := "l", hash_block := 0,
    hash_tth := none }

/-- A failing chained request (`CHAIN_NEXT` set, execution fails). -/
def c3f : db_request_t :=
  { next := true, last := false, single := false, hasres := true, ok := false,
    beginok := true }

/-- A chained follower request (`CHAIN_NEXT` set). -/
def c3c : db_request_t :=
  { next := true, last := false, single := false, hasres := true, ok := true,
    beginok := true }

/-- A chain-ending follower request (no `CHAIN_NEXT`). -/
def c3e : db_request_t :=
  { next := false, last := false, single := false, hasres := true, ok := true,
    beginok := true }

/-- A fresh request arriving after the chain ended. -/
def c3g : db_request_t :=
  { next := false, last := false, single := false, hasres := true, ok := true,
    beginok := true }

/-! ## Theorems -/

/-- Claim C6 (counterexample): the claim states that `is_empty(directory)`
returns true iff no node anywhere in the directory's subtree is a file
carrying a TTH.  A directory whose only child is an empty subdirectory has
no TTH-carrying file anywhere in its subtree, yet `fl_list_isempty`
returns false on it (any immediate subdirectory makes it false). -/
theorem C6_counterexample :
    ¬ (fl_list_isempty (fl_list_t.dir "d" 0 [fl_list_t.dir "e" 0 []]) = true ↔
       subtree_has_tth_file (fl_list_t.dir "d" 0 [fl_list_t.dir "e" 0 []]) = false) := by
  decide

/-- Claim C6 (amended): `fl_list_isempty` on a directory returns true iff
every immediate child is a file without a TTH; it never looks deeper than
one level. -/
theorem C6_isempty_iff_immediate_children (name : String) (size : Nat)
    (sub : List fl_list_t) :
    fl_list_isempty (.dir name size sub) = true ↔
      ∀ f ∈ sub, fl_isfile f = true ∧ fl_hastth f = false := by
  simp only [fl_list_isempty, List.all_eq_true]
  constructor
  · intro h f hf
    have hh := h f hf
    cases f with
    | file n s t =>
        refine ⟨rfl, ?_⟩
        simpa [fl_hastth] using hh
    | dir n s l => simp at hh
  · intro h f hf
    cases f with
    | file n s t =>
        have ht := (h _ hf).2
        simp only [fl_hastth] at ht
        simp [ht]
    | dir n s l =>
        have hi := (h _ hf).1
        simp [fl_isfile] at hi

/-- Claim C6 witness: the amended equivalence evaluated at a directory
with a single unhashed file child. -/
theorem C6_witness :
    fl_list_isempty (.dir "d" 0 [fl_list_t.file "f" 1 false]) = true ↔
      ∀ f ∈ [fl_list_t.file "f" 1 false], fl_isfile f = true ∧ fl_hastth f = false :=
  C6_isempty_iff_immediate_children "d" 0 [fl_list_t.file "f" 1 false]

/-- Claim C7: the spec demands that every occurrence of the byte 0x1D,
including one in the last byte of the buffer, is rewritten to `?` before
the data reaches the XML layer.  The source's `while(len > 1)` loop stops
one byte early, so a 0x1D in the final position of a buffer chunk is
passed through unchanged — evaluated here on one-byte and two-byte
buffers, against the spec-side full rewrite `fixinput_spec`. -/
theorem C7_fixinput_skips_last_byte :
    fl_load_fixinput [0x1d] = [0x1d] ∧
    fl_load_fixinput [0x41, 0x1d] = [0x41, 0x1d] ∧
    fl_load_fixinput [0x1d, 0x41] = [0x3f, 0x41] ∧
    fixinput_spec [0x41, 0x1d] = [0x41, 0x3f] ∧
    fixinput_spec [0x1d] = [0x3f] := by
  decide

/-- Claim C9: a file node whose `hastth` flag is false never matches any
search predicate: the file/directory-mask conjunct of `fl_search_match`
requires `hastth` for files, regardless of the size, keyword, or
extension conditions. -/
theorem C9_file_without_tth_never_matches (s : fl_search) (fl : fl_list_t)
    (hfile : fl_isfile fl = true) (htth : fl_hastth fl = false) :
    fl_search_match fl s = false := by
  simp [fl_search_match, hfile, htth]

/-- Claim C9 witness: a concrete unhashed file against a predicate whose
mask allows files and whose size/keyword/extension conditions all hold. -/
theorem C9_witness :
    fl_isfile (fl_list_t.file "a.mp3" 10 false) = true ∧
    fl_hastth (fl_list_t.file "a.mp3" 10 false) = false ∧
    fl_search_match (fl_list_t.file "a.mp3" 10 false)
      { sizem := -2, filedir := 3, size := 0, ext := [], and := [], not := none } = false :=
  ⟨rfl, rfl, C9_file_without_tth_never_matches _ _ rfl rfl⟩

/-- Helper: equal scalar values give equal characters. -/
theorem char_toNat_inj {a b : Char} (h : a.toNat = b.toNat) : a = b := by
  have hv : a.val = b.val := by
    apply UInt32.eq_of_toBitVec_eq
    apply BitVec.eq_of_toNat_eq
    simpa [Char.toNat, UInt32.toNat] using h
  exact Char.eq_of_val_eq hv

/-- Helper: `strcmp_chars` returns zero only on equal character lists. -/
theorem strcmp_chars_eq_zero :
    ∀ {as bs : List Char}, strcmp_chars as bs = 0 → as = bs := by
  intro as
  induction as with
  | nil =>
    intro bs h
    cases bs with
    | nil => rfl
    | cons b bs => simp [strcmp_chars] at h
  | cons a as ih =>
    intro bs h
    cases bs with
    | nil => simp [strcmp_chars] at h
    | cons b bs =>
      simp only [strcmp_chars] at h
      split_ifs at h with h1 h2
      · omega
      · have hab : a = b := char_toNat_inj (by omega)
        rw [hab, ih h]

/-- Helper: `strcmp` is zero only on equal strings. -/
theorem strcmp_ne_zero {a b : String} (h : a ≠ b) : strcmp a b ≠ 0 := by
  intro h0
  exact h (String.ext (strcmp_chars_eq_zero h0))

/-- Claim C5 (counterexample): the claim states that for every pair of
distinct entries the comparison never returns equality.  Two entries for
distinct records (different TTHs) that agree on enabled status, list flag,
priority and destination path compare equal under `dl_user_dl_sort`. -/
theorem C5_counterexample : dl_user_dl_sort c5x c5y = 0 ∧ c5x ≠ c5y := by
  decide

/-- Claim C5 (amended): `dl_user_dl_sort` orders enabled entries before
disabled ones, file-list downloads before regular files, higher priority
before lower, and breaks remaining ties by `strcmp` on the destination
path; consequently it never returns equality for entries whose destination
paths differ.  (Two distinct entries agreeing on all four keys compare
equal, per the counterexample.) -/
theorem C5_sort_spec (x y : dl_user_dl_t) :
    (x.dl.dest ≠ y.dl.dest → dl_user_dl_sort x y ≠ 0) ∧
    (dl_user_dl_enabled x = true → dl_user_dl_enabled y = false →
      dl_user_dl_sort x y = -1) ∧
    (dl_user_dl_enabled x = dl_user_dl_enabled y →
      x.dl.islist = true → y.dl.islist = false → dl_user_dl_sort x y = -1) ∧
    (dl_user_dl_enabled x = dl_user_dl_enabled y → x.dl.islist = y.dl.islist →
      x.dl.prio > y.dl.prio → dl_user_dl_sort x y = -1) ∧
    (dl_user_dl_enabled x = dl_user_dl_enabled y → x.dl.islist = y.dl.islist →
      x.dl.prio = y.dl.prio →
      dl_user_dl_sort x y = strcmp x.dl.dest y.dl.dest) := by
  refine ⟨?_, ?_, ?_, ?_, ?_⟩
  · intro hd
    have hs := strcmp_ne_zero hd
    unfold dl_user_dl_sort
    split_ifs <;> simp_all
  · intro hx hy
    simp [dl_user_dl_sort, hx, hy]
  · intro he hx hy
    simp [dl_user_dl_sort, he.symm, hx, hy]
  · intro he hl hp
    simp [dl_user_dl_sort, he.symm, hl.symm, hp]
  · intro he hl hp
    simp [dl_user_dl_sort, he.symm, hl.symm, hp, lt_irrefl]

/-- Claim C5 witness: entries with distinct destinations never tie, and
the enabled-before-disabled clause at a concrete pair. -/
theorem C5_witness : dl_user_dl_sort c5x c5w ≠ 0 :=
  (C5_sort_spec c5x c5w).1 (by decide)

/-- Claim C4: a queued regular download smaller than `DL_MINTTHLSIZE`
never requests TTHL data: `hastthl` is set at insertion
(`dl_queue_insert`) and on database reload (`dl_load_dl`), with
`hash_block = DL_MINTTHLSIZE`, and block verification (`dl_recv_check`)
compares the single block (number 0) against the file's root TTH — any
other block number is rejected by the guard. -/
theorem C4_small_file_no_tthl (tth_blocksize : Nat → Nat → Nat)
    (dbcheck : Nat → List Nat → Bool) (dl : dl_t)
    (tth : List Nat) (size : Nat) (dest : String) (prio : Int) (error : Nat)
    (hl : dl.islist = false) (hh : dl.hastthl = false)
    (hs : dl.size < DL_MINTTHLSIZE) (hs2 : size < DL_MINTTHLSIZE) :
    ((dl_queue_insert_dl dl).hastthl = true ∧
     (dl_queue_insert_dl dl).hash_block = DL_MINTTHLSIZE) ∧
    (∀ tthllen,
      (dl_load_dl tth_blocksize tth size dest prio error tthllen).hastthl = true ∧
      (dl_load_dl tth_blocksize tth size dest prio error tthllen).hash_block =
        DL_MINTTHLSIZE) ∧
    (∀ t, dl_recv_check dbcheck (dl_queue_insert_dl dl) 0 t =
      (t == (dl_queue_insert_dl dl).hash)) ∧
    (∀ n t, n ≠ 0 → dl_recv_check dbcheck (dl_queue_insert_dl dl) n t = false) := by
  have hcond : (!dl.islist && !dl.hastthl && decide (dl.size ≤ DL_MINTTHLSIZE)) = true := by
    simp [hl, hh, Nat.le_of_lt hs]
  have hins : dl_queue_insert_dl dl =
      { dl with hastthl := true, hash_block := DL_MINTTHLSIZE, u := [] } := by
    simp [dl_queue_insert_dl, hl, hh, Nat.le_of_lt hs]
  refine ⟨?_, ?_, ?_, ?_⟩
  · rw [hins]
    exact ⟨rfl, rfl⟩
  · intro tthllen
    simp [dl_load_dl, hs2]
  · intro t
    rw [hins]
    simp [dl_recv_check, hs]
  · intro n t hn
    rw [hins]
    simp [dl_recv_check, hs, hn]

/-- Claim C4 witness: a 1-byte regular download. -/
theorem C4_witness :
    ((dl_queue_insert_dl c5dl).hastthl = true ∧
     (dl_queue_insert_dl c5dl).hash_block = DL_MINTTHLSIZE) ∧
    (∀ tthllen,
      (dl_load_dl (fun _ _ => 0) [0] 1 "f" 0 0 tthllen).hastthl = true ∧
      (dl_load_dl (fun _ _ => 0) [0] 1 "f" 0 0 tthllen).hash_block =
        DL_MINTTHLSIZE) ∧
    (∀ t, dl_recv_check (fun _ _ => false) (dl_queue_insert_dl c5dl) 0 t =
      (t == (dl_queue_insert_dl c5dl).hash)) ∧
    (∀ n t, n ≠ 0 → dl_recv_check (fun _ _ => false) (dl_queue_insert_dl c5dl) n t = false) :=
  C4_small_file_no_tthl (fun _ _ => 0) (fun _ _ => false) c5dl [0] 1 "f" 0 0
    (by decide) (by decide) (by decide) (by decide)

/-- Claim C10: a file-list download record has at most one associated
user.  `dl_user_add` rejects a second user on a file-list record (so the
at-most-one invariant is preserved by user addition), `dl_queue_rmuser`
preserves the invariant, and removing the sole user of a file-list record
removes the record itself from the queue (under the hash-table property
that at most one record carries a given hash). -/
theorem C10_filelist_single_user (dl : dl_t) (uid : Nat) (q : List dl_t)
    (tth : List Nat) :
    (dl.islist = true → dl.u ≠ [] → dl_user_add dl uid = dl) ∧
    (dl.islist = true → dl.u.length ≤ 1 → (dl_user_add dl uid).u.length ≤ 1) ∧
    ((∀ d ∈ q, d.islist = true → d.u.length ≤ 1) →
      ∀ d ∈ dl_queue_rmuser q uid tth, d.islist = true → d.u.length ≤ 1) ∧
    (dl ∈ q → (∀ d ∈ q, d.hash = tth → d = dl) → dl.islist = true →
      dl.u = [uid] → ∀ d ∈ dl_queue_rmuser q uid tth, d.hash ≠ tth) := by
  refine ⟨?_, ?_, ?_, ?_⟩
  · intro hl hu
    have hz : (dl.u.length == 0) = false := by
      simp [List.length_eq_zero, hu]
    simp [dl_user_add, hl, hz]
  · intro hl hu
    by_cases hne : dl.u = []
    · simp [dl_user_add, hl, hne]
    · have hz : (dl.u.length == 0) = false := by
        simp [List.length_eq_zero, hne]
      simpa [dl_user_add, hl, hz] using hu
  · intro hq d hd hl
    rcases List.mem_filter.mp hd with ⟨hd1, -⟩
    rcases List.mem_map.mp hd1 with ⟨e, he, rfl⟩
    by_cases hh : (e.hash == tth) = true
    · simp only [hh, if_true] at hl ⊢
      have h1 := hq e he (by simpa [dl_rm_uid] using hl)
      have h2 : (dl_rm_uid e uid).u.length ≤ e.u.length := by
        simpa [dl_rm_uid] using (List.erase_sublist uid e.u).length_le
      omega
    · simp only [Bool.not_eq_true] at hh
      simp only [hh, Bool.false_eq_true, if_false] at hl ⊢
      exact hq e he hl
  · intro hmem huniq hl hu d hd hdh
    rcases List.mem_filter.mp hd with ⟨hd1, hflt⟩
    rcases List.mem_map.mp hd1 with ⟨e, he, hde⟩
    by_cases hh : (e.hash == tth) = true
    · have hedl : e = dl := huniq e he (by simpa using hh)
      subst hedl
      simp only [hh, if_true] at hde
      subst hde
      have hud : (dl_rm_uid e uid).u = [] := by
        simp [dl_rm_uid, hu]
      simp [dl_rm_uid, hdh, hl, hud] at hflt
      rcases hflt with h | ⟨-, h2⟩
      · exact h (by simpa using hh)
      · exact h2 hu
    · simp only [Bool.not_eq_true] at hh
      simp only [hh, Bool.false_eq_true, if_false] at hde
      subst hde
      exact absurd hdh (by simpa using hh)

/-- Claim C10 witness: the concrete file-list record with sole user 7. -/
theorem C10_witness :
    dl_user_add c10dl 9 = c10dl ∧
    (∀ d ∈ dl_queue_rmuser [c10dl] 7 [2], d.hash ≠ [2]) :=
  ⟨(C10_filelist_single_user c10dl 9 [c10dl] [2]).1 (by decide) (by decide),
   (C10_filelist_single_user c10dl 7 [c10dl] [2]).2.2.2 (by decide)
     (by decide) (by decide) (by decide)⟩

/-- Helper: the TLS-port redraw loop returns a draw from the stream that
differs from the TCP port, and its leftover stream is part of the input
stream. -/
theorem listen_pick_tls_spec :
    ∀ (rest : List Nat) (tcp tls : Nat) (rest2 : List Nat),
      listen_pick_tls tcp rest = some (tls, rest2) →
      tls ≠ tcp ∧ tls ∈ rest ∧ ∀ x ∈ rest2, x ∈ rest := by
  intro rest
  induction rest with
  | nil =>
    intro tcp tls rest2 h
    simp [listen_pick_tls] at h
  | cons t ts ih =>
    intro tcp tls rest2 h
    simp only [listen_pick_tls] at h
    by_cases ht : t = tcp
    · rw [if_pos ht] at h
      rcases ih tcp tls rest2 h with ⟨h1, h2, h3⟩
      exact ⟨h1, List.mem_cons_of_mem _ h2,
        fun x hx => List.mem_cons_of_mem _ (h3 x hx)⟩
    · rw [if_neg ht] at h
      simp only [Option.some.injEq, Prod.mk.injEq] at h
      obtain ⟨rfl, rfl⟩ := h
      exact ⟨ht, List.mem_cons_self _ _,
        fun x hx => List.mem_cons_of_mem _ hx⟩

/-- Claim C8: the ports drawn once at startup by `listen_global_init` all
lie in [1025, 65534] (given that every draw of
`g_random_int_range(1025, 65535)` does), the TLS port differs from the TCP
port, and the `bind_add` port substitution maps a configured port of zero
to exactly the stored per-type port — the same value on every refresh,
since refreshes never modify the stored ports — while non-zero ports pass
through unchanged. -/
theorem C8_random_port_selection (draws : List Nat) (p : listen_ports_t)
    (hr : ∀ d ∈ draws, 1025 ≤ d ∧ d ≤ 65534)
    (hinit : listen_global_init draws = some p) :
    (1025 ≤ p.random_tcp_port ∧ p.random_tcp_port ≤ 65534) ∧
    (1025 ≤ p.random_udp_port ∧ p.random_udp_port ≤ 65534) ∧
    (1025 ≤ p.random_tls_port ∧ p.random_tls_port ≤ 65534) ∧
    p.random_tls_port ≠ p.random_tcp_port ∧
    bind_add_port p LBT_TCP 0 = p.random_tcp_port ∧
    bind_add_port p LBT_UDP 0 = p.random_udp_port ∧
    bind_add_port p LBT_TLS 0 = p.random_tls_port ∧
    (∀ btype port, port ≠ 0 → bind_add_port p btype port = port) := by
  cases draws with
  | nil => simp [listen_global_init] at hinit
  | cons tcp rest =>
    simp only [listen_global_init] at hinit
    cases hpick : listen_pick_tls tcp rest with
    | none => rw [hpick] at hinit; simp at hinit
    | some pr =>
      obtain ⟨tls, rest2⟩ := pr
      rw [hpick] at hinit
      cases rest2 with
      | nil => simp at hinit
      | cons udp r3 =>
        simp only [Option.some.injEq] at hinit
        subst hinit
        rcases listen_pick_tls_spec rest tcp tls (udp :: r3) hpick with ⟨hne, htls, hsub⟩
        have htcp := hr tcp (List.mem_cons_self _ _)
        have htlsr := hr tls (List.mem_cons_of_mem _ htls)
        have hudp := hr udp (List.mem_cons_of_mem _ (hsub udp (List.mem_cons_self _ _)))
        refine ⟨htcp, hudp, htlsr, hne, ?_, ?_, ?_, ?_⟩
        · simp [bind_add_port, LBT_TCP]
        · simp [bind_add_port, LBT_UDP, LBT_TCP]
        · simp [bind_add_port, LBT_TLS, LBT_TCP, LBT_UDP]
        · intro btype port hp
          simp [bind_add_port, hp]

/-- Claim C8 witness: a concrete draw stream where the first TLS draw
collides with the TCP port and is redrawn. -/
theorem C8_witness :
    (1025 ≤ (2000 : Nat) ∧ (2000 : Nat) ≤ 65534) ∧
    (1025 ≤ (4000 : Nat) ∧ (4000 : Nat) ≤ 65534) ∧
    (1025 ≤ (3000 : Nat) ∧ (3000 : Nat) ≤ 65534) ∧
    (3000 : Nat) ≠ 2000 ∧
    bind_add_port ⟨2000, 4000, 3000⟩ LBT_TCP 0 = 2000 ∧
    bind_add_port ⟨2000, 4000, 3000⟩ LBT_UDP 0 = 4000 ∧
    bind_add_port ⟨2000, 4000, 3000⟩ LBT_TLS 0 = 3000 ∧
    (∀ btype port, port ≠ 0 → bind_add_port ⟨2000, 4000, 3000⟩ btype port = port) :=
  C8_random_port_selection [2000, 2000, 3000, 4000] ⟨2000, 4000, 3000⟩
    (by decide) (by decide)

/-- Claim C1: evaluation of `bind_create` as written.  The source contains
`g_return_if_fail(sock < 0)`, which returns from the function whenever
`socket()` succeeds, and passes `SOCK_STREAM` for UDP binds and
`SOCK_DGRAM` for TCP/TLS binds.  Consequently, on a successfully created
socket (fd 5) the function performs none of the steps the claim requires:
`SO_REUSEADDR` and the non-blocking flag are not set, `bind` and
`listen(backlog=5)` are never called, the socket is not stored, and no
abort happens either; moreover the socket-type argument is the wrong one
for every bind type.  (With a failed `socket()` call the function proceeds
with the invalid descriptor and ends up aborting all listeners.) -/
theorem C1_bind_create_on_success :
    (bind_create { socket_fd := 5, bind_ok := true, listen_ok := true } LBT_TCP =
      { socket_type_arg := SOCK_DGRAM, reuseaddr_set := false,
        nonblock_set := false, bind_called := false, listen_backlog := none,
        sock := none, aborted := false }) ∧
    (bind_create { socket_fd := 5, bind_ok := true, listen_ok := true } LBT_TLS =
      { socket_type_arg := SOCK_DGRAM, reuseaddr_set := false,
        nonblock_set := false, bind_called := false, listen_backlog := none,
        sock := none, aborted := false }) ∧
    (bind_create { socket_fd := 5, bind_ok := true, listen_ok := true } LBT_UDP =
      { socket_type_arg := SOCK_STREAM, reuseaddr_set := false,
        nonblock_set := false, bind_called := false, listen_backlog := none,
        sock := none, aborted := false }) ∧
    (bind_create { socket_fd := -1, bind_ok := false, listen_ok := false } LBT_TCP).aborted
      = true := by
  decide

/-- Helper: when the incoming bytes exactly complete the current block and
the block's finalized hash fails `dl_recv_check`, the hashing loop of
`dl_recv_update` reports that block and leaves a re-initialized (empty)
hash context. -/
theorem dl_recv_update_loop_block_fail (dbcheck : Nat → List Nat → Bool)
    (tthf : List Nat → List Nat) (dl : dl_t) (ctx : List Nat) (block cur : Nat)
    (buf : List Nat)
    (hcur : cur < dl.hash_block)
    (hlen : buf.length = dl.hash_block - cur)
    (hcheck : dl_recv_check dbcheck dl block (tthf (ctx ++ buf)) = false) :
    dl_recv_update_loop dbcheck tthf dl ctx block cur buf = (some block, []) := by
  have htake : buf.take (dl.hash_block - cur) = buf := by
    rw [← hlen]
    exact List.take_length buf
  have hcur2 : cur + (dl.hash_block - cur) = dl.hash_block := by omega
  rw [dl_recv_update_loop]
  rw [dif_neg (by omega : ¬ buf.length = 0)]
  simp only [hlen, min_self]
  rw [dif_neg (by omega : ¬ dl.hash_block - cur = 0)]
  simp [htake, hcur2, hcheck]

/-- Claim C2: for a non-list download, when a received chunk completes the
current block and the block's finalized hash fails the check (against the
TTHL leaf, or — inside `dl_recv_check` — against the root TTH for files
smaller than one block), `dl_recv_data` records `DLE_HASH` as the per-user
error, resets `have` to the start of the failed block
(`block * hash_block`), truncates the incoming file to that offset
(position and length), and returns FALSE so that no further data is
received for this task. -/
theorem C2_hash_mismatch (dbcheck : Nat → List Nat → Bool)
    (tthf : List Nat → List Nat) (c : recv_ctx_t) (f : inc_file_t)
    (ctx buf : List Nat)
    (hlist : c.dl.islist = false)
    (hctx : c.dl.hash_tth = some ctx)
    (hb : 0 < c.dl.hash_block)
    (hlen : buf.length = c.dl.hash_block - c.dl.have_ % c.dl.hash_block)
    (hcheck : dl_recv_check dbcheck c.dl (c.dl.have_ / c.dl.hash_block)
      (tthf (ctx ++ buf)) = false) :
    dl_recv_data dbcheck tthf true true c f buf =
      (false,
       { c with
          dl := { c.dl with
                    hash_tth := some [],
                    have_ := c.dl.have_ / c.dl.hash_block * c.dl.hash_block },
          uerr := DLE_HASH,
          uerr_block := some (c.dl.have_ / c.dl.hash_block) },
       { pos := c.dl.have_ / c.dl.hash_block * c.dl.hash_block,
         len := c.dl.have_ / c.dl.hash_block * c.dl.hash_block }) := by
  have hcur : c.dl.have_ % c.dl.hash_block < c.dl.hash_block := Nat.mod_lt _ hb
  have hloop := dl_recv_update_loop_block_fail dbcheck tthf c.dl ctx
    (c.dl.have_ / c.dl.hash_block) (c.dl.have_ % c.dl.hash_block) buf hcur hlen hcheck
  have hupd : dl_recv_update dbcheck tthf c.dl buf =
      (some (c.dl.have_ / c.dl.hash_block), { c.dl with hash_tth := some [] }) := by
    unfold dl_recv_update
    rw [hctx]
    simp [hloop]
  unfold dl_recv_data
  rw [if_neg (by omega : ¬ buf.length = 0)]
  simp [hlist, hupd]

/-- Claim C2 witness: a one-block file (block size 4) whose only block
hashes to a value failing the check. -/
theorem C2_witness :
    dl_recv_data (fun _ _ => false) (fun l => l) true true c2c c2f [1, 2, 3, 4] =
      (false,
       { c2c with
          dl := { c2c.dl with
                    hash_tth := some [],
                    have_ := c2c.dl.have_ / c2c.dl.hash_block * c2c.dl.hash_block },
          uerr := DLE_HASH,
          uerr_block := some (c2c.dl.have_ / c2c.dl.hash_block) },
       { pos := c2c.dl.have_ / c2c.dl.hash_block * c2c.dl.hash_block,
         len := c2c.dl.have_ / c2c.dl.hash_block * c2c.dl.hash_block }) :=
  C2_hash_mismatch (fun _ _ => false) (fun l => l) c2c c2f [] [1, 2, 3, 4]
    rfl rfl (by decide) (by decide) (by decide)

/-- Helper: while `errtrans` is set, every popped non-SINGLE request is
answered through `db_queue_item_error` without being executed, and the
first request without `DBF_NEXT` ends the chain, resetting the loop state
to the initial (no transaction) state. -/
theorem db_run_errchain (s : db_state_t) (chain : List db_request_t)
    (e : db_request_t) (rest : List db_request_t)
    (hs : s.errtrans = true) (hst : s.transEnd = true)
    (hchain : ∀ cq ∈ chain, cq.single = false ∧ cq.next = true)
    (he1 : e.single = false) (he2 : e.next = false) :
    db_run s (chain ++ e :: rest) =
      (chain ++ [e]).map (fun _ => [db_event_t.errfinal]) ++
        db_run db_state_init rest := by
  induction chain generalizing s with
  | nil =>
    simp [db_run, db_step, he1, he2, hs, db_state_init]
  | cons cq cqs ih =>
    have hc := hchain cq (List.mem_cons_self _ _)
    have hrec := ih { s with donext := true } hs hst
      (fun x hx => hchain x (List.mem_cons_of_mem _ hx))
    have hstep : db_step s cq = ({ s with donext := true }, [db_event_t.errfinal]) := by
      simp [db_step, hc.1, hc.2, hs]
    simp only [List.cons_append, db_run, hstep, List.append_eq]
    rw [hrec]
    simp

/-- Claim C3: a query that fails while a batched transaction is open
(`trans_end` pending, `errtrans` clear) is executed, answered with its
error result, and followed by a ROLLBACK; if it carried `CHAIN_NEXT`, then
every subsequent queued request up to and including the first one without
`CHAIN_NEXT` is answered with an error result (`db_queue_item_error`)
without being executed, in submission order; and the first request after
the chain ends runs in a fresh transaction (its event list starts with
BEGIN, then the query execution and its result). -/
theorem C3_chain_error (s : db_state_t) (f : db_request_t)
    (chain : List db_request_t) (e g : db_request_t)
    (rest : List db_request_t)
    (hs1 : s.transEnd = true) (hs2 : s.errtrans = false)
    (hf1 : f.single = false) (hf2 : f.last = false) (hf3 : f.ok = false)
    (hf4 : f.next = true)
    (hchain : ∀ cq ∈ chain, cq.single = false ∧ cq.next = true)
    (he1 : e.single = false) (he2 : e.next = false)
    (hg1 : g.single = false) (hg2 : g.last = false) (hg3 : g.beginok = true) :
    db_run s (f :: (chain ++ e :: g :: rest)) =
      [db_event_t.exec false, db_event_t.final false, db_event_t.rollback] ::
        ((chain ++ [e]).map (fun _ => [db_event_t.errfinal]) ++
          db_run db_state_init (g :: rest)) ∧
    (db_run db_state_init (g :: rest)).head? =
      some ([db_event_t.beginq, db_event_t.exec g.ok, db_event_t.final g.ok] ++
        (if g.ok then [] else [db_event_t.rollback])) := by
  have hstepf : db_step s f =
      ({ transEnd := true, donext := s.donext, errtrans := true },
       [db_event_t.exec false, db_event_t.final false, db_event_t.rollback]) := by
    simp [db_step, hf1, hf2, hf3, hf4, hs1, hs2]
  have hstepg : db_step db_state_init g =
      ((if g.ok then
          { transEnd := true, donext := db_state_init.donext,
            errtrans := db_state_init.errtrans }
        else if g.next then
          { transEnd := true, donext := db_state_init.donext, errtrans := true }
        else
          { transEnd := false, donext := db_state_init.donext,
            errtrans := db_state_init.errtrans }),
       [db_event_t.beginq, db_event_t.exec g.ok, db_event_t.final g.ok] ++
         (if g.ok then [] else [db_event_t.rollback])) := by
    cases hok : g.ok <;>
      simp [db_step, hg1, hg2, hg3, db_state_init, hok]
  constructor
  · have hchainrun := db_run_errchain
      { transEnd := true, donext := s.donext, errtrans := true }
      chain e (g :: rest) rfl rfl hchain he1 he2
    have hstep1 : db_run s (f :: (chain ++ e :: g :: rest)) =
        (db_step s f).2 :: db_run (db_step s f).1 (chain ++ e :: g :: rest) := rfl
    rw [hstep1, hstepf]
    rw [hchainrun]
  · have hstep2 : db_run db_state_init (g :: rest) =
        (db_step db_state_init g).2 :: db_run (db_step db_state_init g).1 rest := rfl
    rw [hstep2, hstepg]
    simp

/-- Claim C3 witness: one failing chained insert, one chained follower,
one chain-ending follower, then a fresh successful request. -/
theorem C3_witness :
    db_run { transEnd := true, donext := false, errtrans := false }
        (c3f :: ([c3c] ++ c3e :: c3g :: [])) =
      [db_event_t.exec false, db_event_t.final false, db_event_t.rollback] ::
        (([c3c] ++ [c3e]).map (fun _ => [db_event_t.errfinal]) ++
          db_run db_state_init (c3g :: [])) ∧
    (db_run db_state_init (c3g :: [])).head? =
      some ([db_event_t.beginq, db_event_t.exec c3g.ok, db_event_t.final c3g.ok] ++
        (if c3g.ok then [] else [db_event_t.rollback])) :=
  C3_chain_error { transEnd := true, donext := false, errtrans := false }
    c3f [c3c] c3e c3g [] rfl rfl rfl rfl rfl rfl (by decide) rfl rfl rfl rfl rfl

end Ncdc
